import Mathlib

/-!
# go-reckon: a shallow embedding of `goreckon.go` and `api.go`

The library is a thin client: it builds HTTP requests, hands them to
`net/http`, and turns the response into Go values.  The embedding keeps that
shape.  Everything the library computes itself (request bodies, URLs, headers,
the branch structure after the response arrives, the expiry arithmetic, the
redirect hook) is a Lean function translated from the Go text.  Everything the
outside world decides (what `client.Do` returns, what `ioutil.ReadAll` yields,
what `time.Now()` reads) is an argument.

Conventions.

* A Go `string` is a Lean `String`; the embedding covers the Go strings that
  are valid UTF-8.
* A `time.Time` is an `Int`, nanoseconds on an unbounded time line; a
  `time.Duration` is an `Int` kept inside the signed 64-bit range by
  `wrapInt64`.
* A Go call either returns or panics: `Outcome`.
* The trace lines written with `fmt.Println` are not part of the embedding.
-/

namespace GoReckon

/-! ## Go runtime: panics, errors, integers, time -/

/-- Result of running a Go function body: it returns a value or it panics. -/
inductive Outcome (α : Type) where
  | panicked (msg : String)
  | ret (a : α)
  deriving Repr, DecidableEq

/-- A Go `error` value.  Each constructor records where the error was made;
`msg` is what `Error()` prints. -/
inductive GoError where
  /-- Made by `fmt.Errorf` inside this package. -/
  | errorf (msg : String)
  /-- A `*json.SyntaxError`: the body is not JSON text. -/
  | jsonMalformed (msg : String)
  /-- A `*json.UnmarshalTypeError`: JSON value of the wrong kind for the Go target. -/
  | jsonType (msg : String)
  /-- An error handed back by `net/http` or by reading the body. -/
  | external (msg : String)
  deriving Repr, DecidableEq

/-- The method `Error()` of a Go error. -/
def GoError.Error : GoError → String
  | .errorf m => m
  | .jsonMalformed m => m
  | .jsonType m => m
  | .external m => m

/-- An error produced by `json.Unmarshal`. -/
def GoError.isDecodeError : GoError → Bool
  | .jsonMalformed _ => true
  | .jsonType _ => true
  | _ => false

/-- Substring relation on Go strings (`strings.Contains`). -/
def Contains (s sub : String) : Prop := ∃ p q : String, s = p ++ sub ++ q

/-- Two's complement wrap of an integer into the `int64` range. -/
def wrapInt64 (x : Int) : Int := (x + 2 ^ 63) % 2 ^ 64 - 2 ^ 63

/-- The range of Go `int` (64 bits on the supported platforms). -/
def fitsInt (n : Int) : Bool := decide (-(2 : Int) ^ 63 ≤ n) && decide (n < 2 ^ 63)

/-- Instants: nanoseconds on the time line (`time.Time`). -/
abbrev Time := Int

/-- Value of `time.Millisecond`, a `Duration` counted in nanoseconds. -/
def Millisecond : Int := 1000000

/-- `time.Duration(n) * time.Millisecond`: an `int64` product, so it wraps. -/
def durationMillis (n : Int) : Int := wrapInt64 (wrapInt64 n * Millisecond)

/-- `t.Add(d)`. -/
def Time.Add (t : Time) (d : Int) : Time := t + d

/-! ## `net/http` headers -/

/-- An `http.Header`: a map from canonical header names to value lists, kept as
an association list with one entry per name. -/
abbrev Header := List (String × List String)

/-- All values stored under a name (`h[key]`, the nil slice if absent). -/
def Header.values : Header → String → List String
  | [], _ => []
  | (k, vs) :: rest, key => if k = key then vs else Header.values rest key

/-- `h.Get(key)`: the first value stored under the name, `""` if there is none. -/
def Header.Get (h : Header) (key : String) : String :=
  match Header.values h key with
  | [] => ""
  | v :: _ => v

/-- `h.Add(key, value)`: append the value to the values stored under the name. -/
def Header.Add : Header → String → String → Header
  | [], key, value => [(key, [value])]
  | (k, vs) :: rest, key, value =>
    if k = key then (k, vs ++ [value]) :: rest else (k, vs) :: Header.Add rest key value

/-- `h.Set(key, value)`: replace the values stored under the name by the one value. -/
def Header.Set : Header → String → String → Header
  | [], key, value => [(key, [value])]
  | (k, vs) :: rest, key, value =>
    if k = key then (k, [value]) :: rest else (k, vs) :: Header.Set rest key value

/-! ## `net/url`: escaping a path and printing a URL -/

/-- The fields of `url.URL` that the library touches. -/
structure URL where
  Scheme : String
  Host : String
  Path : String
  deriving Repr, DecidableEq

/-- The `shouldEscape(c, encodePath)` test of `net/url`, lifted to characters:
ASCII letters and digits, the marks `-_.~` and the reserved characters
`$&+,/:;=@` stay; `?` and every other byte is escaped.  A character outside
ASCII is encoded in bytes `0x80` and above, all of which are escaped. -/
def shouldEscape (c : Char) : Bool :=
  if c.isAlphanum then false
  else if c = '-' || c = '_' || c = '.' || c = '~' then false
  else if c = '$' || c = '&' || c = '+' || c = ',' || c = '/' || c = ':' || c = ';'
      || c = '=' || c = '@' then false
  else true

/-- The table `upperhex` of `net/url`. -/
def upperhex (n : Nat) : Char := "0123456789ABCDEF".data.getD n '0'

/-- The three characters `%XX` written for an escaped byte. -/
def escapeByte (b : UInt8) : List Char :=
  ['%', upperhex (b.toNat / 16), upperhex (b.toNat % 16)]

/-- How `escape` writes one character of the input. -/
def escapeChar (c : Char) : List Char :=
  if shouldEscape c then (String.utf8EncodeChar c).flatMap escapeByte else [c]

/-- The function `escape(s, encodePath)` of `net/url`. -/
def escape (s : String) : String := String.mk (s.data.flatMap escapeChar)

/-- The method `(*URL).EscapedPath()` for a URL whose `RawPath` is empty, as
it is after `u.Path` has been assigned. -/
def URL.EscapedPath (u : URL) : String :=
  if u.Path = "*" then "*" else escape u.Path

/-- The method `(*URL).String()` for a URL with a scheme and without user
info, opaque part, query or fragment: the scheme and a colon, `//` and the
host, a slash if the escaped path does not start with one, the escaped path.
The host is printed as it is (the two hosts of the library are made of
letters and dots, which `escape` leaves alone in a host). -/
def URL.String (u : URL) : String :=
  let path := u.EscapedPath
  (if u.Scheme ≠ "" then u.Scheme ++ ":" else "")
    ++ (if u.Scheme ≠ "" ∨ u.Host ≠ "" then
          (if u.Host ≠ "" ∨ u.Path ≠ "" then "//" else "") ++ u.Host
        else "")
    ++ (if path ≠ "" ∧ path.data.head? ≠ some '/' ∧ u.Host ≠ "" then "/" else "")
    ++ path

/-! ## `encoding/base64` -/

/-- The alphabet of `base64.StdEncoding`. -/
def encodeStd : String :=
  "ABCDEFGHIJKLMNOPQRSTUVWXYZabcdefghijklmnopqrstuvwxyz0123456789+/"

/-- One character of the alphabet. -/
def b64Char (n : Nat) : Char := encodeStd.data.getD (n % 64) 'A'

/-- The method `Encode` of `base64.StdEncoding` on a byte sequence: three
bytes give four characters; a tail of one or two bytes is padded with `=`. -/
def b64Encode : List Nat → List Char
  | [] => []
  | [a] =>
    let val := a * 65536
    [b64Char (val / 262144), b64Char (val / 4096), '=', '=']
  | [a, b] =>
    let val := a * 65536 + b * 256
    [b64Char (val / 262144), b64Char (val / 4096), b64Char (val / 64), '=']
  | a :: b :: c :: rest =>
    let val := a * 65536 + b * 256 + c
    b64Char (val / 262144) :: b64Char (val / 4096) :: b64Char (val / 64) :: b64Char val
      :: b64Encode rest

/-- The bytes of a Go string. -/
def bytesOf (s : String) : List Nat := (s.data.flatMap String.utf8EncodeChar).map UInt8.toNat

/-- `b64.StdEncoding.EncodeToString([]byte(s))`. -/
def EncodeToString (s : String) : String := String.mk (b64Encode (bytesOf s))

/-! ## `encoding/json`: values and bodies -/

/-- A JSON value as the decoder of `encoding/json` sees it.  A number is kept
in two forms because the decoder stores it in an `int` by reading its literal
with `strconv.ParseInt`: `int n` is a literal made of an optional minus sign
and digits, `frac lit` is a literal with a fraction or an exponent. -/
inductive JValue where
  | null
  | bool (b : Bool)
  | int (n : Int)
  | frac (lit : String)
  | str (s : String)
  | arr (xs : List JValue)
  | obj (kvs : List (String × JValue))

/-- The word `encoding/json` uses for the kind of a value in its type errors. -/
def JValue.kind : JValue → String
  | .null => "null"
  | .bool _ => "bool"
  | .int _ => "number"
  | .frac _ => "number"
  | .str _ => "string"
  | .arr _ => "array"
  | .obj _ => "object"

/-- The bytes of a response body, seen through the JSON scanner: either they
are not JSON text (the scanner reports `msg`), or they spell the value `v`
(members of an object in the order written, repeated names kept). -/
inductive Body where
  | malformed (msg : String)
  | json (v : JValue)

/-- The `*json.UnmarshalTypeError` for a value that cannot go into a target. -/
def typeError (v : JValue) (target : String) : GoError :=
  .jsonType ("json: cannot unmarshal " ++ v.kind ++ " into Go value of type " ++ target)

/-- The method `saveError` of the decoder: the first error is the one kept. -/
def saveError (saved : Option GoError) (err : GoError) : Option GoError :=
  match saved with
  | some e => some e
  | none => some err

/-- The function `foldRune` of `encoding/json` as far as it can make a rune
equal to an ASCII one: ASCII lower case goes to upper case, the long s to `S`,
the Kelvin sign to `K`. -/
def foldRune (c : Char) : Char :=
  if c.isLower then c.toUpper
  else if c = Char.ofNat 0x17F then 'S'
  else if c = Char.ofNat 0x212A then 'K'
  else c

/-- The function `foldName` of `encoding/json`. -/
def foldName (s : String) : String := String.mk (s.data.map foldRune)

/-- Storing a JSON value in a Go `string` (`literalStore`): a string is
stored, `null` leaves the target alone, anything else is a type error. -/
def storeString (old : String) (v : JValue) : String × Option GoError :=
  match v with
  | .str s => (s, none)
  | .null => (old, none)
  | v => (old, some (typeError v "string"))

/-- Storing a JSON value in a Go `int` (`literalStore`): an integer literal in
range is stored, `null` leaves the target alone, anything else is a type error. -/
def storeInt (old : Int) (v : JValue) : Int × Option GoError :=
  match v with
  | .int n => if fitsInt n then (n, none) else (old, some (typeError v "int"))
  | .null => (old, none)
  | v => (old, some (typeError v "int"))

/-! ## `api.go` -/

/-- The struct `TokenResponse`. -/
structure TokenResponse where
  AccessToken : String
  RefreshToken : String
  ExpiresIn : Int
  deriving Repr, DecidableEq

/-- The zero value `&TokenResponse{}`. -/
def TokenResponse.zero : TokenResponse := ⟨"", "", 0⟩

/-- The fields of `TokenResponse`. -/
inductive TokenField where
  | AccessToken
  | RefreshToken
  | ExpiresIn
  deriving Repr, DecidableEq

/-- The JSON names given by the struct tags of `TokenResponse`. -/
def tokenFields : List (String × TokenField) :=
  [("access_token", .AccessToken), ("refresh_token", .RefreshToken), ("expires_in", .ExpiresIn)]

/-- Field lookup of the decoder: the field whose name is the key, else the
first field whose folded name is the folded key. -/
def findField (key : String) : Option TokenField :=
  match tokenFields.find? (fun f => f.1 = key) with
  | some f => some f.2
  | none => (tokenFields.find? (fun f => foldName f.1 = foldName key)).map (fun f => f.2)

/-- One member of a JSON object decoded into a `TokenResponse`: a member with
an unknown name is skipped; a type error is saved and decoding goes on. -/
def storeMember (st : TokenResponse × Option GoError) (kv : String × JValue) :
    TokenResponse × Option GoError :=
  match findField kv.1 with
  | none => st
  | some .AccessToken =>
    match storeString st.1.AccessToken kv.2 with
    | (s, none) => ({ st.1 with AccessToken := s }, st.2)
    | (_, some e) => (st.1, saveError st.2 e)
  | some .RefreshToken =>
    match storeString st.1.RefreshToken kv.2 with
    | (s, none) => ({ st.1 with RefreshToken := s }, st.2)
    | (_, some e) => (st.1, saveError st.2 e)
  | some .ExpiresIn =>
    match storeInt st.1.ExpiresIn kv.2 with
    | (n, none) => ({ st.1 with ExpiresIn := n }, st.2)
    | (_, some e) => (st.1, saveError st.2 e)

/-- `json.Unmarshal(rawResBody, resp)` for `resp : *TokenResponse`: the value
of `resp` afterwards and the error returned. -/
def unmarshalTokenResponse (body : Body) (resp : TokenResponse) :
    TokenResponse × Option GoError :=
  match body with
  | .malformed msg => (resp, some (.jsonMalformed msg))
  | .json (.obj kvs) => kvs.foldl storeMember (resp, none)
  | .json .null => (resp, none)
  | .json v => (resp, some (typeError v "goreckon.TokenResponse"))

/-- `json.Unmarshal(rawResBody, &resp)` for `resp : []T`, given how one JSON
value decodes into a zero `T` (the stored value and the error saved, if any).
`none` is the nil slice.  An array gives one element per item and the first
saved error; `null` leaves the slice nil; other values are a type error. -/
def unmarshalSlice {α : Type} (decodeValue : JValue → α × Option GoError) (body : Body) :
    Option (List α) × Option GoError :=
  match body with
  | .malformed msg => (none, some (.jsonMalformed msg))
  | .json (.arr xs) =>
    (some (xs.map (fun x => (decodeValue x).1)), (xs.filterMap (fun x => (decodeValue x).2)).head?)
  | .json .null => (none, none)
  | .json v => (none, some (typeError v "slice"))

/-! ## `net/http`: requests, responses, the round trip -/

/-- The fields of `http.Request` that the library sets or reads. -/
structure Request where
  Method : String
  URL : String
  Host : String
  Header : Header
  Body : String
  deriving Repr, DecidableEq

/-- What `ioutil.ReadAll(res.Body)` will yield: the bytes read so far and an
error, or the whole body. -/
inductive ReadResult where
  | failed (read : String) (err : GoError)
  | ok (body : Body)

/-- The fields of `http.Response` that the library reads. -/
structure Response where
  StatusCode : Int
  Status : String
  Body : ReadResult

/-- The pair returned by `client.Do(r)`; `res = none` is the nil pointer. -/
structure DoResult where
  res : Option Response
  err : Option GoError

/-- The runtime panic of reading a field through a nil pointer. -/
def nilDereference : String := "runtime error: invalid memory address or nil pointer dereference"

/-- Splitting `scheme://rest` at the first `://`. -/
def splitScheme : List Char → List Char → Option (List Char × List Char)
  | acc, ':' :: '/' :: '/' :: rest => some (acc.reverse, rest)
  | acc, c :: rest => splitScheme (c :: acc) rest
  | _, [] => none

/-- `url.ParseRequestURI` on absolute URLs of the form `scheme://host/path`
without user info, query, fragment or escapes, the form of the two constants
it is called on.  `none` is the nil pointer returned with an error. -/
def ParseRequestURI (rawURL : String) : Option URL :=
  match splitScheme [] rawURL.data with
  | none => none
  | some (scheme, rest) =>
    if scheme = [] then none
    else some ⟨String.mk scheme, String.mk (rest.takeWhile (fun c => c != '/')),
      String.mk (rest.dropWhile (fun c => c != '/'))⟩

/-- `http.NewRequest(method, urlStr, body)` where `urlStr` is `u.String()`:
the request records the printed URL and, as `Host`, the host found in it.
Parsing the printed form of such a URL does not fail, so no error is returned. -/
def NewRequest (method : String) (u : URL) (body : String) : Request :=
  { Method := method, URL := u.String, Host := u.Host, Header := [], Body := body }

/-! ## `goreckon.go` -/

def baseURL : String := "https://identity.reckon.com"
def tokenURL : String := "connect/token"
def refreshURL : String := "connect/token"
def ApiEndpointURL : String := "https://api.reckon.com"

/-- `time.Second * 30`. -/
def defaultSendTimeout : Int := 1000000000 * 30

/-- The struct `Reckon`. -/
structure Reckon where
  StoreCode : String
  ClientID : String
  ClientSecret : String
  RedirectURI : String
  Timeout : Int
  deriving Repr, DecidableEq

/-- `NewClient` creates a Reckon client with default values. -/
def NewClient (code clientID clientSecret redirectURI : String) : Reckon :=
  { StoreCode := code, Timeout := defaultSendTimeout, ClientID := clientID,
    ClientSecret := clientSecret, RedirectURI := redirectURI }

/-- What the token operations return: access token, refresh token, expiry, error. -/
abbrev TokenResult := String × String × Time × Option GoError

/-- Lines 47 to 65 of `AccessToken`: the request handed to `client.Do`. -/
def accessTokenRequest (v : Reckon) : Outcome Request :=
  match ParseRequestURI baseURL with
  | none => .panicked nilDereference
  | some u =>
    let u := { u with Path := tokenURL }
    let request := "grant_type=authorization_code&code=" ++ v.StoreCode
      ++ "&redirect_uri=" ++ v.RedirectURI
    let r := NewRequest "POST" u request
    let r := { r with Header := r.Header.Add "Content-Type" "application/x-www-form-urlencoded" }
    let auth := v.ClientID ++ ":" ++ v.ClientSecret
    let sEnc := EncodeToString auth
    .ret { r with Header := r.Header.Add "Authorization" ("Basic " ++ sEnc) }

/-- Lines 70 to 88 of `AccessToken` and 115 to 133 of `RefreshToken`, which
differ in the text of the last error only: what is made of the pair returned
by `client.Do`.  The error of the pair is dropped (`res, _ := client.Do(r)`). -/
def tokenReply (failure : String) (now : Time) (d : DoResult) : Outcome TokenResult :=
  match d.res with
  | none => .panicked nilDereference
  | some res =>
    match res.Body with
    | .failed rawResBody _ => .ret ("", "", now, some (.errorf rawResBody))
    | .ok rawResBody =>
      if res.StatusCode = 200 then
        match unmarshalTokenResponse rawResBody TokenResponse.zero with
        | (_, some err) => .ret ("", "", now, some err)
        | (resp, none) =>
          .ret (resp.AccessToken, resp.RefreshToken,
            Time.Add now (durationMillis resp.ExpiresIn), none)
      else .ret ("", "", now, some (.errorf (failure ++ res.Status)))

/-- `AccessToken` will get a new access token.  `client` is the method `Do` of
the `http.Client` and `now` the reading of `time.Now()`. -/
def AccessToken (client : Request → DoResult) (now : Time) (v : Reckon) : Outcome TokenResult :=
  match accessTokenRequest v with
  | .panicked msg => .panicked msg
  | .ret r => tokenReply "Failed to get access token: " now (client r)

/-- Lines 93 to 111 of `RefreshToken`: the request handed to `client.Do`. -/
def refreshTokenRequest (v : Reckon) (refreshtoken : String) : Outcome Request :=
  match ParseRequestURI baseURL with
  | none => .panicked nilDereference
  | some u =>
    let u := { u with Path := tokenURL }
    let request := "grant_type=refresh_token&refresh_token=" ++ refreshtoken
      ++ "&redirect_uri=" ++ v.RedirectURI
    let r := NewRequest "POST" u request
    let r := { r with Header := r.Header.Add "Content-Type" "application/x-www-form-urlencoded" }
    let auth := v.ClientID ++ ":" ++ v.ClientSecret
    let sEnc := EncodeToString auth
    .ret { r with Header := r.Header.Add "Authorization" ("Basic " ++ sEnc) }

/-- `RefreshToken` will get a new refresh token. -/
def RefreshToken (client : Request → DoResult) (now : Time) (v : Reckon)
    (refreshtoken : String) : Outcome TokenResult :=
  match refreshTokenRequest v refreshtoken with
  | .panicked msg => .panicked msg
  | .ret r => tokenReply "Failed to get refresh token: " now (client r)

/-- The redirect hook installed by `GetContacts` and `GetBooks`: the request
as it is left, and the error returned. -/
def checkRedirectFunc (req : Request) (via : List Request) : Outcome (Request × Option GoError) :=
  if req.Header.Get "Authorization" = "" then
    match via with
    | [] => .panicked "runtime error: index out of range [0] with length 0"
    | v0 :: _ =>
      .ret ({ req with Header := req.Header.Add "Authorization" (v0.Header.Get "Authorization") },
        none)
  else .ret (req, none)

/-- What the resource operations return: the slice (`none` is nil) and the error. -/
abbrev Records (α : Type) := Option (List α) × Option GoError

/-- Lines 141 to 154 of `GetContacts`: the request handed to `client.Do`. -/
def getContactsRequest (token bookId : String) : Outcome Request :=
  match ParseRequestURI ApiEndpointURL with
  | none => .panicked nilDereference
  | some u =>
    let u := { u with Path := "r1/" ++ bookId ++ "/contacts" }
    let r := NewRequest "GET" u ""
    let r := { r with Header := [] }
    let r := { r with Header := r.Header.Set "Accept" "application/json" }
    .ret { r with Header := r.Header.Set "Authorization" ("Bearer " ++ token) }

/-- Lines 186 to 199 of `GetBooks`: the request handed to `client.Do`. -/
def getBooksRequest (token : String) : Outcome Request :=
  match ParseRequestURI ApiEndpointURL with
  | none => .panicked nilDereference
  | some u =>
    let u := { u with Path := "r1/cashbooks" }
    let r := NewRequest "GET" u ""
    let r := { r with Header := [] }
    let r := { r with Header := r.Header.Set "Accept" "application/json" }
    .ret { r with Header := r.Header.Set "Authorization" ("Bearer " ++ token) }

/-- Lines 156 to 177 of `GetContacts` and 203 to 224 of `GetBooks`, which are
the same up to the element type: what is made of the pair returned by
`client.Do`. -/
def recordsReply {α : Type} (decodeValue : JValue → α × Option GoError) (d : DoResult) :
    Outcome (Records α) :=
  match d.err with
  | some err => .ret (none, some err)
  | none =>
    match d.res with
    | none => .panicked nilDereference
    | some res =>
      match res.Body with
      | .failed _ err => .ret (none, some err)
      | .ok rawResBody =>
        if res.StatusCode = 200 then
          match unmarshalSlice decodeValue rawResBody with
          | (_, some err) => .ret (none, some err)
          | (resp, none) => .ret (resp, none)
        else .ret (none, some (.errorf ("Failed to get Reckon Contacts " ++ res.Status)))

/-- `GetContacts`, for a record type `Contact` given by its decoder.  `client`
is the method `Do` of an `http.Client` whose `CheckRedirect` is
`checkRedirectFunc`. -/
def GetContacts {Contact : Type} (decodeValue : JValue → Contact × Option GoError)
    (client : Request → DoResult) (_v : Reckon) (token bookId : String) :
    Outcome (Records Contact) :=
  match getContactsRequest token bookId with
  | .panicked msg => .panicked msg
  | .ret r => recordsReply decodeValue (client r)

/-- `GetBooks`, for a record type `Book` given by its decoder. -/
def GetBooks {Book : Type} (decodeValue : JValue → Book × Option GoError)
    (client : Request → DoResult) (_v : Reckon) (token : String) : Outcome (Records Book) :=
  match getBooksRequest token with
  | .panicked msg => .panicked msg
  | .ret r => recordsReply decodeValue (client r)

/-! ## Vocabulary of the statements -/

/-- The three members of a token object. -/
def tokenMembers (a r : String) (n : Int) : List (String × JValue) :=
  [("access_token", .str a), ("refresh_token", .str r), ("expires_in", .int n)]

/-- The JSON object `{access_token: a, refresh_token: r, expires_in: n}`. -/
def tokenObject (a r : String) (n : Int) : JValue := .obj (tokenMembers a r n)

/-- The error a member of a token object leaves behind, if any. -/
def memberError (kv : String × JValue) : Option GoError :=
  match findField kv.1 with
  | none => none
  | some .AccessToken => (storeString "" kv.2).2
  | some .RefreshToken => (storeString "" kv.2).2
  | some .ExpiresIn => (storeInt 0 kv.2).2

/-- The bodies `json.Unmarshal` refuses for a `TokenResponse`: text that is not
JSON, a value that is neither an object nor `null`, and an object with a
member that is named after a field and has a value of the wrong type. -/
def refused : Body → Bool
  | .malformed _ => true
  | .json (.obj kvs) => kvs.any (fun kv => (memberError kv).isSome)
  | .json .null => false
  | .json _ => true

/-- A client as `NewClient` builds it. -/
def sampleClient : Reckon := NewClient "c0de" "id" "secret" "https://app.example/cb"

/-- A round trip that answers every request with the same response. -/
def answer (res : Response) : Request → DoResult := fun _ => ⟨some res, none⟩

/-- A round trip that fails: no response, an error. -/
def refuse (msg : String) : Request → DoResult := fun _ => ⟨none, some (.external msg)⟩

/-- How `net/http` fills the header of a redirected request before it calls
the hook: the header is copied from the first request of the chain, except
that `Authorization` is left out when the redirect leaves the domain of the
first request.  So under `Authorization` the new request has the values of
the first request, or none. -/
def redirectedFrom (req first : Request) : Bool :=
  decide (req.Header.values "Authorization" = [])
    || decide (req.Header.values "Authorization" = first.Header.values "Authorization")

/-- Modelled from the spec: the record types `Book` and `Contact` are declared
in a file of the repository that is not among the sources; the spec says of a
book only that it is a JSON object and that it decodes its member `id`. -/
structure Book where
  id : String
  deriving Repr, DecidableEq

/-- Modelled from the spec: how a JSON value decodes into a zero `Book`, with
the rules `encoding/json` applies to a struct with one string field. -/
def decodeBook : JValue → Book × Option GoError
  | .obj kvs =>
    kvs.foldl (fun st kv =>
      if kv.1 = "id" ∨ foldName kv.1 = foldName "id" then
        match storeString st.1.id kv.2 with
        | (s, none) => (⟨s⟩, st.2)
        | (_, some e) => (st.1, saveError st.2 e)
      else st) (⟨""⟩, none)
  | .null => (⟨""⟩, none)
  | v => (⟨""⟩, some (typeError v "goreckon.Book"))

/-! ## Requests built by the four operations -/

theorem parse_baseURL : ParseRequestURI baseURL = some ⟨"https", "identity.reckon.com", ""⟩ := by
  decide

theorem parse_ApiEndpointURL :
    ParseRequestURI ApiEndpointURL = some ⟨"https", "api.reckon.com", ""⟩ := by
  decide

theorem tokenEndpoint_String :
    (URL.mk "https" "identity.reckon.com" tokenURL).String
      = "https://identity.reckon.com/connect/token" := by
  decide

/-- The request of `AccessToken`, written out. -/
theorem accessTokenRequest_eq (v : Reckon) :
    accessTokenRequest v = .ret
      { Method := "POST"
        URL := "https://identity.reckon.com/connect/token"
        Host := "identity.reckon.com"
        Header := [("Content-Type", ["application/x-www-form-urlencoded"]),
          ("Authorization", ["Basic " ++ EncodeToString (v.ClientID ++ ":" ++ v.ClientSecret)])]
        Body := "grant_type=authorization_code&code=" ++ v.StoreCode
          ++ "&redirect_uri=" ++ v.RedirectURI } := by
  simp [accessTokenRequest, parse_baseURL, NewRequest, tokenEndpoint_String, Header.Add]

/-- The request of `RefreshToken`, written out. -/
theorem refreshTokenRequest_eq (v : Reckon) (refreshtoken : String) :
    refreshTokenRequest v refreshtoken = .ret
      { Method := "POST"
        URL := "https://identity.reckon.com/connect/token"
        Host := "identity.reckon.com"
        Header := [("Content-Type", ["application/x-www-form-urlencoded"]),
          ("Authorization", ["Basic " ++ EncodeToString (v.ClientID ++ ":" ++ v.ClientSecret)])]
        Body := "grant_type=refresh_token&refresh_token=" ++ refreshtoken
          ++ "&redirect_uri=" ++ v.RedirectURI } := by
  simp [refreshTokenRequest, parse_baseURL, NewRequest, tokenEndpoint_String, Header.Add]

theorem escape_append (s t : String) : escape (s ++ t) = escape s ++ escape t := by
  apply String.ext
  simp [escape, String.data_append, List.flatMap_append]

/-- A character that `shouldEscape` lets through is written as it is. -/
theorem escape_of_unreserved (s : String) (h : s.data.all (fun c => !shouldEscape c) = true) :
    escape s = s := by
  apply String.ext
  have key : ∀ l : List Char, l.all (fun c => !shouldEscape c) = true →
      l.flatMap escapeChar = l := by
    intro l
    induction l with
    | nil => intro _; rfl
    | cons c cs ih =>
      intro hl
      simp only [List.all_cons, Bool.and_eq_true, Bool.not_eq_true'] at hl
      have hcs : cs.all (fun c => !shouldEscape c) = true := by
        simpa using hl.2
      simp [List.flatMap_cons, escapeChar, hl.1, ih hcs]
  simpa [escape] using key s.data h

/-- The URL that `GetContacts` prints for a book. -/
theorem contactsURL_String (bookId : String) :
    (URL.mk "https" "api.reckon.com" ("r1/" ++ bookId ++ "/contacts")).String
      = "https://api.reckon.com/r1/" ++ escape bookId ++ "/contacts" := by
  have hstar : "r1/" ++ bookId ++ "/contacts" ≠ "*" := by
    intro h
    have := congrArg String.data h
    simp at this
  have hesc : escape ("r1/" ++ bookId ++ "/contacts") = "r1/" ++ escape bookId ++ "/contacts" := by
    rw [escape_append, escape_append]
    have h1 : escape "r1/" = "r1/" := by decide
    have h2 : escape "/contacts" = "/contacts" := by decide
    rw [h1, h2]
  have hne : "r1/" ++ escape bookId ++ "/contacts" ≠ "" := by
    intro h
    have := congrArg String.data h
    simp at this
  have hhead : ("r1/" ++ escape bookId ++ "/contacts").data.head? ≠ some '/' := by
    simp [String.data_append]
  have hhost : ("api.reckon.com" : String) ≠ "" := by decide
  have hscheme : ("https" : String) ≠ "" := by decide
  simp only [URL.String, URL.EscapedPath, hstar, hesc, if_false]
  simp only [hne, hhead, hhost, hscheme, ne_eq, not_false_eq_true, and_self, true_or, if_true]
  apply String.ext
  simp [String.data_append]

/-- The request of `GetContacts`, written out. -/
theorem getContactsRequest_eq (token bookId : String) :
    getContactsRequest token bookId = .ret
      { Method := "GET"
        URL := "https://api.reckon.com/r1/" ++ escape bookId ++ "/contacts"
        Host := "api.reckon.com"
        Header := [("Accept", ["application/json"]), ("Authorization", ["Bearer " ++ token])]
        Body := "" } := by
  simp [getContactsRequest, parse_ApiEndpointURL, NewRequest, contactsURL_String, Header.Set]

/-- The request of `GetBooks`, written out. -/
theorem getBooksRequest_eq (token : String) :
    getBooksRequest token = .ret
      { Method := "GET"
        URL := "https://api.reckon.com/r1/cashbooks"
        Host := "api.reckon.com"
        Header := [("Accept", ["application/json"]), ("Authorization", ["Bearer " ++ token])]
        Body := "" } := by
  have hurl : (URL.mk "https" "api.reckon.com" "r1/cashbooks").String
      = "https://api.reckon.com/r1/cashbooks" := by decide
  simp [getBooksRequest, parse_ApiEndpointURL, NewRequest, hurl, Header.Set]

/-- The encoder agrees with the test vectors of RFC 4648, section 10. -/
theorem EncodeToString_rfc4648 :
    EncodeToString "" = "" ∧ EncodeToString "f" = "Zg==" ∧ EncodeToString "fo" = "Zm8="
      ∧ EncodeToString "foo" = "Zm9v" ∧ EncodeToString "foob" = "Zm9vYg=="
      ∧ EncodeToString "fooba" = "Zm9vYmE=" ∧ EncodeToString "foobar" = "Zm9vYmFy" := by
  decide

/-! ## Token operations: what is made of the reply -/

theorem AccessToken_eq (client : Request → DoResult) (now : Time) (v : Reckon) :
    ∃ req, accessTokenRequest v = .ret req
      ∧ AccessToken client now v = tokenReply "Failed to get access token: " now (client req) := by
  refine ⟨_, accessTokenRequest_eq v, ?_⟩
  simp [AccessToken, accessTokenRequest_eq]

theorem RefreshToken_eq (client : Request → DoResult) (now : Time) (v : Reckon) (rt : String) :
    ∃ req, refreshTokenRequest v rt = .ret req
      ∧ RefreshToken client now v rt
        = tokenReply "Failed to get refresh token: " now (client req) := by
  refine ⟨_, refreshTokenRequest_eq v rt, ?_⟩
  simp [RefreshToken, refreshTokenRequest_eq]

theorem findField_access_token : findField "access_token" = some .AccessToken := by decide

theorem findField_refresh_token : findField "refresh_token" = some .RefreshToken := by decide

theorem findField_expires_in : findField "expires_in" = some .ExpiresIn := by decide

/-- Decoding an object made of the three token members, in whatever order they
are written, fills the three fields. -/
theorem unmarshal_tokenMembers (kvs : List (String × JValue)) (a r : String) (n : Int)
    (hn : fitsInt n = true) (hperm : kvs.Perm (tokenMembers a r n)) :
    unmarshalTokenResponse (.json (.obj kvs)) TokenResponse.zero = (⟨a, r, n⟩, none) := by
  unfold tokenMembers at hperm
  have hlen := hperm.length_eq
  have h1 := hperm.symm.subset (List.mem_cons_self _ _)
  have h2 := hperm.symm.subset (List.mem_cons_of_mem _ (List.mem_cons_self _ _))
  have h3 := hperm.symm.subset
    (List.mem_cons_of_mem _ (List.mem_cons_of_mem _ (List.mem_cons_self _ _)))
  match kvs, hlen with
  | [k1, k2, k3], _ =>
    simp only [List.mem_cons, List.mem_singleton, List.not_mem_nil, or_false] at h1 h2 h3
    rcases h1 with rfl | rfl | rfl <;> rcases h2 with h2 | h2 | h2 <;>
      (try (simp at h2)) <;> subst h2 <;>
      rcases h3 with h3 | h3 | h3 <;> (try (simp at h3)) <;> subst h3 <;>
      simp [unmarshalTokenResponse, storeMember, findField_access_token,
        findField_refresh_token, findField_expires_in, storeString, storeInt, hn,
        TokenResponse.zero]

/-- The reply to a 200 response carrying a token object. -/
theorem tokenReply_ok (failure : String) (now : Time) (d : DoResult) (res : Response)
    (kvs : List (String × JValue)) (a r : String) (n : Int) (hres : d.res = some res)
    (hcode : res.StatusCode = 200) (hbody : res.Body = .ok (.json (.obj kvs)))
    (hperm : kvs.Perm (tokenMembers a r n)) (hn : fitsInt n = true) :
    tokenReply failure now d = .ret (a, r, Time.Add now (durationMillis n), none) := by
  simp [tokenReply, hres, hcode, hbody, unmarshal_tokenMembers kvs a r n hn hperm]

theorem wrapInt64_of_fits (x : Int) (h1 : -9223372036854775808 ≤ x)
    (h2 : x < 9223372036854775808) : wrapInt64 x = x := by
  unfold wrapInt64
  norm_num
  omega

/-- Inside the range where the product fits 64 bits the duration is `n` milliseconds. -/
theorem durationMillis_of_fits (n : Int) (h1 : -9223372036854 ≤ n) (h2 : n ≤ 9223372036854) :
    durationMillis n = n * 1000000 := by
  unfold durationMillis Millisecond
  rw [wrapInt64_of_fits n (by omega) (by omega)]
  exact wrapInt64_of_fits _ (by omega) (by omega)

/-- The reply to a response whose status code is not 200. -/
theorem tokenReply_status (failure : String) (now : Time) (d : DoResult) (res : Response)
    (body : Body) (hres : d.res = some res) (hcode : res.StatusCode ≠ 200)
    (hbody : res.Body = .ok body) :
    tokenReply failure now d = .ret ("", "", now, some (.errorf (failure ++ res.Status))) := by
  simp [tokenReply, hres, hcode, hbody]

theorem contains_suffix (p s : String) : Contains (p ++ s) s :=
  ⟨p, "", by simp⟩

theorem storeString_err (old : String) (v : JValue) :
    (storeString old v).2 = (storeString "" v).2 := by
  cases v <;> rfl

theorem storeInt_err (old : Int) (v : JValue) : (storeInt old v).2 = (storeInt 0 v).2 := by
  cases v <;> simp [storeInt]
  split <;> rfl

/-- A member changes the saved error only if none is saved yet, and then to its own. -/
theorem storeMember_err (st : TokenResponse × Option GoError) (kv : String × JValue) :
    (storeMember st kv).2 = match st.2 with
      | some e => some e
      | none => memberError kv := by
  unfold storeMember memberError
  cases hf : findField kv.1 with
  | none => cases h : st.2 <;> simp [h]
  | some f =>
    cases f
    · simp only
      rw [← storeString_err st.1.AccessToken kv.2]
      rcases hs : storeString st.1.AccessToken kv.2 with ⟨s, _ | e⟩ <;>
        cases h : st.2 <;> simp [saveError, h]
    · simp only
      rw [← storeString_err st.1.RefreshToken kv.2]
      rcases hs : storeString st.1.RefreshToken kv.2 with ⟨s, _ | e⟩ <;>
        cases h : st.2 <;> simp [saveError, h]
    · simp only
      rw [← storeInt_err st.1.ExpiresIn kv.2]
      rcases hs : storeInt st.1.ExpiresIn kv.2 with ⟨s, _ | e⟩ <;>
        cases h : st.2 <;> simp [saveError, h]

theorem storeString_isDecodeError (old : String) (v : JValue) (e : GoError)
    (h : (storeString old v).2 = some e) : e.isDecodeError = true := by
  cases v <;> simp [storeString, typeError] at h <;> subst h <;> rfl

theorem storeInt_isDecodeError (old : Int) (v : JValue) (e : GoError)
    (h : (storeInt old v).2 = some e) : e.isDecodeError = true := by
  cases v with
  | int n =>
    by_cases hn : fitsInt n = true
    · simp [storeInt, hn] at h
    · simp [storeInt, hn, typeError] at h
      subst h
      rfl
  | _ => simp [storeInt, typeError] at h <;> subst h <;> rfl

/-- The error left by a member is a type error of the decoder. -/
theorem memberError_isDecodeError (kv : String × JValue) (e : GoError)
    (h : memberError kv = some e) : e.isDecodeError = true := by
  unfold memberError at h
  cases hf : findField kv.1 with
  | none => simp [hf] at h
  | some f =>
    cases f <;> simp only [hf] at h
    · exact storeString_isDecodeError _ _ e h
    · exact storeString_isDecodeError _ _ e h
    · exact storeInt_isDecodeError _ _ e h

/-- Once an error is saved, decoding the rest of the object keeps one. -/
theorem foldl_storeMember_saved (kvs : List (String × JValue))
    (st : TokenResponse × Option GoError) (e : GoError) (h : st.2 = some e) :
    (kvs.foldl storeMember st).2 = some e := by
  induction kvs generalizing st with
  | nil => simpa using h
  | cons kv rest ih =>
    simp only [List.foldl_cons]
    apply ih
    rw [storeMember_err, h]

/-- An object with a member of the wrong type decodes with an error, and the
error is a type error. -/
theorem foldl_storeMember_error (kvs : List (String × JValue))
    (st : TokenResponse × Option GoError) (hst : ∀ e, st.2 = some e → e.isDecodeError = true)
    (h : ∃ kv ∈ kvs, (memberError kv).isSome = true) :
    ∃ e, (kvs.foldl storeMember st).2 = some e ∧ e.isDecodeError = true := by
  induction kvs generalizing st with
  | nil => simp at h
  | cons kv rest ih =>
    simp only [List.foldl_cons]
    cases hs : st.2 with
    | some e =>
      exact ⟨e, foldl_storeMember_saved rest _ e (by rw [storeMember_err, hs]), hst e hs⟩
    | none =>
      cases hm : memberError kv with
      | some e =>
        have hdec : e.isDecodeError = true := memberError_isDecodeError kv e hm
        exact ⟨e, foldl_storeMember_saved rest _ e (by rw [storeMember_err, hs, hm]), hdec⟩
      | none =>
        apply ih
        · intro e he
          rw [storeMember_err, hs, hm] at he
          cases he
        · obtain ⟨kv2, hmem, hk⟩ := h
          rcases List.mem_cons.mp hmem with rfl | hmem
          · rw [hm] at hk
            cases hk
          · exact ⟨kv2, hmem, hk⟩

/-- With no error saved and no member leaving one, none is saved at the end. -/
theorem foldl_storeMember_none (kvs : List (String × JValue))
    (st : TokenResponse × Option GoError) (hst : st.2 = none)
    (h : ∀ kv ∈ kvs, memberError kv = none) : (kvs.foldl storeMember st).2 = none := by
  induction kvs generalizing st with
  | nil => simpa using hst
  | cons kv rest ih =>
    simp only [List.foldl_cons]
    apply ih
    · rw [storeMember_err, hst, h kv (List.mem_cons_self _ _)]
    · intro kv2 hmem
      exact h kv2 (List.mem_cons_of_mem _ hmem)

/-- A refused body gives a decode error. -/
theorem unmarshal_refused (body : Body) (h : refused body = true) :
    ∃ e, (unmarshalTokenResponse body TokenResponse.zero).2 = some e
      ∧ e.isDecodeError = true := by
  cases body with
  | malformed msg => exact ⟨_, rfl, rfl⟩
  | json v =>
    cases v with
    | obj kvs =>
      simp only [refused, List.any_eq_true] at h
      simp only [unmarshalTokenResponse]
      exact foldl_storeMember_error kvs _ (by intro e he; cases he) h
    | null => simp [refused] at h
    | _ => exact ⟨_, rfl, rfl⟩

/-- A body that is not refused decodes without error. -/
theorem unmarshal_not_refused (body : Body) (h : refused body = false) :
    (unmarshalTokenResponse body TokenResponse.zero).2 = none := by
  cases body with
  | malformed msg => simp [refused] at h
  | json v =>
    cases v with
    | obj kvs =>
      simp only [unmarshalTokenResponse]
      apply foldl_storeMember_none kvs _ rfl
      intro kv hmem
      simp only [refused, List.any_eq_false] at h
      have := h kv hmem
      cases hm : memberError kv with
      | none => rfl
      | some e => simp [hm] at this
    | null => rfl
    | _ => simp [refused] at h

/-- The reply to a 200 response with a refused body. -/
theorem tokenReply_refused (failure : String) (now : Time) (d : DoResult) (res : Response)
    (body : Body) (hres : d.res = some res) (hcode : res.StatusCode = 200)
    (hbody : res.Body = .ok body) (h : refused body = true) :
    ∃ e, e.isDecodeError = true ∧ tokenReply failure now d = .ret ("", "", now, some e) := by
  obtain ⟨e, he, hdec⟩ := unmarshal_refused body h
  refine ⟨e, hdec, ?_⟩
  rcases hu : unmarshalTokenResponse body TokenResponse.zero with ⟨resp, err⟩
  rw [hu] at he
  simp only at he
  subst he
  simp [tokenReply, hres, hcode, hbody, hu]

/-- The reply when `client.Do` hands back no response. -/
theorem tokenReply_no_response (failure : String) (now : Time) (d : DoResult)
    (hres : d.res = none) : tokenReply failure now d = .panicked nilDereference := by
  simp [tokenReply, hres]

/-- The reply when reading the body fails: the error carries the bytes read. -/
theorem tokenReply_read_failed (failure : String) (now : Time) (d : DoResult) (res : Response)
    (read : String) (err : GoError) (hres : d.res = some res)
    (hbody : res.Body = .failed read err) :
    tokenReply failure now d = .ret ("", "", now, some (.errorf read)) := by
  simp [tokenReply, hres, hbody]

/-! ## The claims about the token operations -/

/-- C1: for a 200 response whose body is a JSON object made of the members
`access_token = a`, `refresh_token = r`, `expires_in = n`, written in any
order, both `AccessToken` and `RefreshToken` (for every refresh token passed
in) return `a` and `r` unchanged together with a nil error. -/
theorem C1_token_values_returned (client : Request → DoResult) (now : Time) (v : Reckon)
    (res : Response) (kvs : List (String × JValue)) (a r : String) (n : Int)
    (hres : ∀ req, (client req).res = some res) (hcode : res.StatusCode = 200)
    (hbody : res.Body = .ok (.json (.obj kvs))) (hperm : kvs.Perm (tokenMembers a r n))
    (hn : fitsInt n = true) :
    (∃ t, AccessToken client now v = .ret (a, r, t, none))
      ∧ ∀ rt, ∃ t, RefreshToken client now v rt = .ret (a, r, t, none) := by
  constructor
  · obtain ⟨req, _, h⟩ := AccessToken_eq client now v
    exact ⟨_, h.trans (tokenReply_ok _ now _ res kvs a r n (hres req) hcode hbody hperm hn)⟩
  · intro rt
    obtain ⟨req, _, h⟩ := RefreshToken_eq client now v rt
    exact ⟨_, h.trans (tokenReply_ok _ now _ res kvs a r n (hres req) hcode hbody hperm hn)⟩

theorem C1_token_values_returned_witness :
    (∃ t, AccessToken (answer ⟨200, "200 OK", .ok (.json (tokenObject "at1" "rt1" 3600))⟩)
        1700000000000000000 sampleClient = .ret ("at1", "rt1", t, none))
      ∧ ∀ rt, ∃ t, RefreshToken (answer ⟨200, "200 OK", .ok (.json (tokenObject "at1" "rt1" 3600))⟩)
        1700000000000000000 sampleClient rt = .ret ("at1", "rt1", t, none) :=
  C1_token_values_returned _ _ _ ⟨200, "200 OK", .ok (.json (tokenObject "at1" "rt1" 3600))⟩
    (tokenMembers "at1" "rt1" 3600) "at1" "rt1" 3600 (fun _ => rfl) rfl rfl (List.Perm.refl _)
    (by decide)

/-- C2, as stated, fails: with `expires_in = 9223372036855` the product with
`time.Millisecond` leaves the 64-bit range and wraps, and the expiry returned
lies before the call time instead of `n` milliseconds after it. -/
theorem C2_expiry_wraps :
    AccessToken (answer ⟨200, "200 OK", .ok (.json (tokenObject "at1" "rt1" 9223372036855))⟩)
        0 sampleClient = .ret ("at1", "rt1", -9223372036854551616, none)
      ∧ (-9223372036854551616 : Int) ≠ 0 + 9223372036855 * Millisecond := by
  constructor
  · obtain ⟨req, _, h⟩ := AccessToken_eq
      (answer ⟨200, "200 OK", .ok (.json (tokenObject "at1" "rt1" 9223372036855))⟩) 0 sampleClient
    rw [h, tokenReply_ok _ 0 _ ⟨200, "200 OK", .ok (.json (tokenObject "at1" "rt1" 9223372036855))⟩
      (tokenMembers "at1" "rt1" 9223372036855) "at1" "rt1" 9223372036855 rfl rfl rfl
      (List.Perm.refl _) (by decide)]
    decide
  · decide

/-- C2, amended: for a 200 response carrying the token object with
`expires_in = n`, where `n` lies between -9223372036854 and 9223372036854 (so
that `n` milliseconds fit a 64-bit count of nanoseconds), the expiry returned
by `AccessToken` and by `RefreshToken` is the call time plus `n` milliseconds. -/
theorem C2_expiry_is_milliseconds (client : Request → DoResult) (now : Time) (v : Reckon)
    (res : Response) (kvs : List (String × JValue)) (a r : String) (n : Int)
    (hres : ∀ req, (client req).res = some res) (hcode : res.StatusCode = 200)
    (hbody : res.Body = .ok (.json (.obj kvs))) (hperm : kvs.Perm (tokenMembers a r n))
    (h1 : -9223372036854 ≤ n) (h2 : n ≤ 9223372036854) :
    AccessToken client now v = .ret (a, r, now + n * Millisecond, none)
      ∧ ∀ rt, RefreshToken client now v rt = .ret (a, r, now + n * Millisecond, none) := by
  have hn : fitsInt n = true := by
    simp only [fitsInt, Bool.and_eq_true, decide_eq_true_eq]
    constructor <;> norm_num <;> omega
  have hd : Time.Add now (durationMillis n) = now + n * Millisecond := by
    rw [durationMillis_of_fits n h1 h2]
    rfl
  constructor
  · obtain ⟨req, _, h⟩ := AccessToken_eq client now v
    rw [h, tokenReply_ok _ now _ res kvs a r n (hres req) hcode hbody hperm hn, hd]
  · intro rt
    obtain ⟨req, _, h⟩ := RefreshToken_eq client now v rt
    rw [h, tokenReply_ok _ now _ res kvs a r n (hres req) hcode hbody hperm hn, hd]

theorem C2_expiry_is_milliseconds_witness :
    AccessToken (answer ⟨200, "200 OK", .ok (.json (tokenObject "at1" "rt1" 3600))⟩)
        1700000000000000000 sampleClient = .ret ("at1", "rt1", 1700000003600000000, none)
      ∧ ∀ rt, RefreshToken (answer ⟨200, "200 OK", .ok (.json (tokenObject "at1" "rt1" 3600))⟩)
        1700000000000000000 sampleClient rt = .ret ("at1", "rt1", 1700000003600000000, none) :=
  C2_expiry_is_milliseconds _ 1700000000000000000 _
    ⟨200, "200 OK", .ok (.json (tokenObject "at1" "rt1" 3600))⟩
    (tokenMembers "at1" "rt1" 3600) "at1" "rt1" 3600 (fun _ => rfl) rfl rfl (List.Perm.refl _)
    (by decide) (by decide)

/-- C3: for a response whose status code is not 200, whatever its body,
`AccessToken` and `RefreshToken` return empty token strings and an error whose
message contains the status text of the response; the body does not enter the
result. -/
theorem C3_status_error (client : Request → DoResult) (now : Time) (v : Reckon)
    (res : Response) (body : Body)
    (hres : ∀ req, (client req).res = some res) (hcode : res.StatusCode ≠ 200)
    (hbody : res.Body = .ok body) :
    (∃ e, AccessToken client now v = .ret ("", "", now, some e)
        ∧ e = .errorf ("Failed to get access token: " ++ res.Status)
        ∧ Contains e.Error res.Status)
      ∧ ∀ rt, ∃ e, RefreshToken client now v rt = .ret ("", "", now, some e)
        ∧ e = .errorf ("Failed to get refresh token: " ++ res.Status)
        ∧ Contains e.Error res.Status := by
  constructor
  · obtain ⟨req, _, h⟩ := AccessToken_eq client now v
    exact ⟨_, h.trans (tokenReply_status _ now _ res body (hres req) hcode hbody), rfl,
      contains_suffix _ _⟩
  · intro rt
    obtain ⟨req, _, h⟩ := RefreshToken_eq client now v rt
    exact ⟨_, h.trans (tokenReply_status _ now _ res body (hres req) hcode hbody), rfl,
      contains_suffix _ _⟩

theorem C3_status_error_witness :
    (∃ e, AccessToken (answer ⟨401, "401 Unauthorized", .ok (.json (tokenObject "at1" "rt1" 60))⟩)
          5 sampleClient = .ret ("", "", 5, some e)
        ∧ e = .errorf ("Failed to get access token: " ++ "401 Unauthorized")
        ∧ Contains e.Error "401 Unauthorized")
      ∧ ∀ rt, ∃ e,
        RefreshToken (answer ⟨401, "401 Unauthorized", .ok (.json (tokenObject "at1" "rt1" 60))⟩)
          5 sampleClient rt = .ret ("", "", 5, some e)
        ∧ e = .errorf ("Failed to get refresh token: " ++ "401 Unauthorized")
        ∧ Contains e.Error "401 Unauthorized" :=
  C3_status_error _ 5 _ ⟨401, "401 Unauthorized", .ok (.json (tokenObject "at1" "rt1" 60))⟩
    (.json (tokenObject "at1" "rt1" 60)) (fun _ => rfl) (by decide) rfl

/-- C4, the code at the failing inputs: when the round trip fails and hands
back no response, `AccessToken` and `RefreshToken` panic on `res.Body`; when
reading the body fails, the error returned carries the bytes read so far and
not the message of the failure. -/
theorem C4_failures_evaluated :
    AccessToken (refuse "dial tcp: connection refused") 0 sampleClient
        = .panicked nilDereference
      ∧ RefreshToken (refuse "dial tcp: connection refused") 0 sampleClient "rt1"
        = .panicked nilDereference
      ∧ AccessToken (answer ⟨200, "200 OK", .failed "[1, 2" (.external "unexpected EOF")⟩)
        0 sampleClient = .ret ("", "", 0, some (.errorf "[1, 2"))
      ∧ RefreshToken (answer ⟨200, "200 OK", .failed "[1, 2" (.external "unexpected EOF")⟩)
        0 sampleClient "rt1" = .ret ("", "", 0, some (.errorf "[1, 2"))
      ∧ ¬ Contains (GoError.errorf "[1, 2").Error "unexpected EOF" := by
  refine ⟨?_, ?_, ?_, ?_, ?_⟩
  · obtain ⟨req, _, h⟩ := AccessToken_eq (refuse "dial tcp: connection refused") 0 sampleClient
    rw [h]
    exact tokenReply_no_response _ _ _ rfl
  · obtain ⟨req, _, h⟩ :=
      RefreshToken_eq (refuse "dial tcp: connection refused") 0 sampleClient "rt1"
    rw [h]
    exact tokenReply_no_response _ _ _ rfl
  · obtain ⟨req, _, h⟩ := AccessToken_eq
      (answer ⟨200, "200 OK", .failed "[1, 2" (.external "unexpected EOF")⟩) 0 sampleClient
    rw [h]
    exact tokenReply_read_failed _ _ _ _ _ _ rfl rfl
  · obtain ⟨req, _, h⟩ := RefreshToken_eq
      (answer ⟨200, "200 OK", .failed "[1, 2" (.external "unexpected EOF")⟩) 0 sampleClient "rt1"
    rw [h]
    exact tokenReply_read_failed _ _ _ _ _ _ rfl rfl
  · rintro ⟨p, q, h⟩
    have hlen := congrArg String.length h
    simp only [GoError.Error, String.length_append] at hlen
    have h5 : ("[1, 2" : String).length = 5 := by decide
    have h14 : ("unexpected EOF" : String).length = 14 := by decide
    omega

/-- C5, as stated, fails: a 200 response whose body is `{}`, or `null`, is
decoded without error, and the operations return a nil error together with
empty token strings. -/
theorem C5_empty_object_accepted :
    AccessToken (answer ⟨200, "200 OK", .ok (.json (.obj []))⟩) 0 sampleClient
        = .ret ("", "", 0, none)
      ∧ RefreshToken (answer ⟨200, "200 OK", .ok (.json (.obj []))⟩) 0 sampleClient "rt1"
        = .ret ("", "", 0, none)
      ∧ AccessToken (answer ⟨200, "200 OK", .ok (.json .null)⟩) 0 sampleClient
        = .ret ("", "", 0, none)
      ∧ RefreshToken (answer ⟨200, "200 OK", .ok (.json .null)⟩) 0 sampleClient "rt1"
        = .ret ("", "", 0, none) := by
  refine ⟨?_, ?_, ?_, ?_⟩
  · obtain ⟨req, _, h⟩ := AccessToken_eq (answer ⟨200, "200 OK", .ok (.json (.obj []))⟩)
      0 sampleClient
    rw [h]
    rfl
  · obtain ⟨req, _, h⟩ := RefreshToken_eq (answer ⟨200, "200 OK", .ok (.json (.obj []))⟩)
      0 sampleClient "rt1"
    rw [h]
    rfl
  · obtain ⟨req, _, h⟩ := AccessToken_eq (answer ⟨200, "200 OK", .ok (.json .null)⟩)
      0 sampleClient
    rw [h]
    rfl
  · obtain ⟨req, _, h⟩ := RefreshToken_eq (answer ⟨200, "200 OK", .ok (.json .null)⟩)
      0 sampleClient "rt1"
    rw [h]
    rfl

/-- C5, amended: for a 200 response whose body is not JSON text, or is a JSON
value that is neither an object nor `null` (such as `[]`), or is an object
with a member named after a token field and carrying a value of the wrong
type, `AccessToken` and `RefreshToken` return a decode error together with
empty token strings. -/
theorem C5_refused_body_is_decode_error (client : Request → DoResult) (now : Time)
    (v : Reckon) (res : Response) (body : Body)
    (hres : ∀ req, (client req).res = some res) (hcode : res.StatusCode = 200)
    (hbody : res.Body = .ok body) (hbad : refused body = true) :
    (∃ e, e.isDecodeError = true ∧ AccessToken client now v = .ret ("", "", now, some e))
      ∧ ∀ rt, ∃ e, e.isDecodeError = true
        ∧ RefreshToken client now v rt = .ret ("", "", now, some e) := by
  constructor
  · obtain ⟨req, _, h⟩ := AccessToken_eq client now v
    obtain ⟨e, hdec, he⟩ := tokenReply_refused "Failed to get access token: " now (client req)
      res body (hres req) hcode hbody hbad
    exact ⟨e, hdec, h.trans he⟩
  · intro rt
    obtain ⟨req, _, h⟩ := RefreshToken_eq client now v rt
    obtain ⟨e, hdec, he⟩ := tokenReply_refused "Failed to get refresh token: " now (client req)
      res body (hres req) hcode hbody hbad
    exact ⟨e, hdec, h.trans he⟩

theorem C5_refused_body_is_decode_error_witness :
    (∃ e, e.isDecodeError = true
        ∧ AccessToken (answer ⟨200, "200 OK",
            .ok (.json (.obj [("access_token", .int 5), ("refresh_token", .str "rt1")]))⟩)
          0 sampleClient = .ret ("", "", 0, some e))
      ∧ ∀ rt, ∃ e, e.isDecodeError = true
        ∧ RefreshToken (answer ⟨200, "200 OK",
            .ok (.json (.obj [("access_token", .int 5), ("refresh_token", .str "rt1")]))⟩)
          0 sampleClient rt = .ret ("", "", 0, some e) :=
  C5_refused_body_is_decode_error _ 0 _
    ⟨200, "200 OK", .ok (.json (.obj [("access_token", .int 5), ("refresh_token", .str "rt1")]))⟩
    (.json (.obj [("access_token", .int 5), ("refresh_token", .str "rt1")]))
    (fun _ => rfl) rfl rfl (by decide)

/-! ## The claims about the requests -/

/-- C6: for a client built by `NewClient`, the request of `AccessToken` is a
POST to `https://identity.reckon.com/connect/token` with the header
`Authorization: Basic ` followed by the standard base64 of
`clientID:clientSecret` and with the body
`grant_type=authorization_code&code=<code>&redirect_uri=<redirectURI>`; the
request of `RefreshToken` is the same except for its body
`grant_type=refresh_token&refresh_token=<rt>&redirect_uri=<redirectURI>`;
the values are inserted as they are, and these are the requests handed to the
round trip. -/
theorem C6_token_requests (code clientID clientSecret redirectURI rt : String) :
    ∃ r1 r2,
      accessTokenRequest (NewClient code clientID clientSecret redirectURI) = .ret r1
      ∧ refreshTokenRequest (NewClient code clientID clientSecret redirectURI) rt = .ret r2
      ∧ r1.Method = "POST"
      ∧ r1.URL = "https://identity.reckon.com/connect/token"
      ∧ r1.Header.values "Authorization"
        = ["Basic " ++ EncodeToString (clientID ++ ":" ++ clientSecret)]
      ∧ r1.Body = "grant_type=authorization_code&code=" ++ code
        ++ "&redirect_uri=" ++ redirectURI
      ∧ r2 = { r1 with Body := "grant_type=refresh_token&refresh_token=" ++ rt
        ++ "&redirect_uri=" ++ redirectURI }
      ∧ (∀ client now, AccessToken client now (NewClient code clientID clientSecret redirectURI)
          = tokenReply "Failed to get access token: " now (client r1))
      ∧ (∀ client now,
          RefreshToken client now (NewClient code clientID clientSecret redirectURI) rt
          = tokenReply "Failed to get refresh token: " now (client r2)) := by
  refine ⟨_, _, accessTokenRequest_eq _, refreshTokenRequest_eq _ rt, rfl, rfl, ?_, rfl, rfl,
    ?_, ?_⟩
  · simp [Header.values, NewClient]
  · intro client now
    simp [AccessToken, accessTokenRequest_eq]
  · intro client now
    simp [RefreshToken, refreshTokenRequest_eq]

/-- C7, as stated, fails: for the book id `a?b` the URL of the request is
`https://api.reckon.com/r1/a%3Fb/contacts`, with the question mark escaped,
and not `https://api.reckon.com/r1/a?b/contacts`. -/
theorem C7_book_id_is_escaped :
    ∃ r, getContactsRequest "tok" "a?b" = .ret r
      ∧ r.URL = "https://api.reckon.com/r1/a%3Fb/contacts"
      ∧ r.URL ≠ "https://api.reckon.com/r1/" ++ "a?b" ++ "/contacts" := by
  refine ⟨_, getContactsRequest_eq "tok" "a?b", ?_, ?_⟩ <;> decide

/-- C7, amended: for every token and book id, `GetContacts` issues a GET
request whose URL is `https://api.reckon.com/r1/<e>/contacts`, where `e` is
the book id escaped as a URL path (`e` is the book id itself whenever the book
id is made of ASCII letters, digits and the characters `-_.~$&+,/:;=@`), and
whose headers are exactly `Accept: application/json` and
`Authorization: Bearer <token>`. -/
theorem C7_contacts_request (token bookId : String) :
    ∃ r, getContactsRequest token bookId = .ret r
      ∧ r.Method = "GET"
      ∧ r.URL = "https://api.reckon.com/r1/" ++ escape bookId ++ "/contacts"
      ∧ r.Header = [("Accept", ["application/json"]), ("Authorization", ["Bearer " ++ token])]
      ∧ (bookId.data.all (fun c => !shouldEscape c) = true →
          r.URL = "https://api.reckon.com/r1/" ++ bookId ++ "/contacts")
      ∧ (∀ (Contact : Type) (decodeValue : JValue → Contact × Option GoError)
          (client : Request → DoResult) (v : Reckon),
          GetContacts decodeValue client v token bookId = recordsReply decodeValue (client r)) := by
  refine ⟨_, getContactsRequest_eq token bookId, rfl, rfl, rfl, ?_, ?_⟩
  · intro h
    simp only [escape_of_unreserved bookId h]
  · intro Contact decodeValue client v
    simp [GetContacts, getContactsRequest_eq]

theorem C7_contacts_request_witness :
    ∃ r, getContactsRequest "tok" "acct42" = .ret r
      ∧ r.Method = "GET"
      ∧ r.URL = "https://api.reckon.com/r1/acct42/contacts"
      ∧ r.Header = [("Accept", ["application/json"]), ("Authorization", ["Bearer tok"])] := by
  obtain ⟨r, h1, h2, _, h4, h5, _⟩ := C7_contacts_request "tok" "acct42"
  exact ⟨r, h1, h2, h5 (by decide), h4⟩

/-! ## The redirect hook -/

theorem Header.values_Add (h : Header) (key value : String) :
    Header.values (Header.Add h key value) key = Header.values h key ++ [value] := by
  induction h with
  | nil => simp [Header.Add, Header.values]
  | cons kv rest ih =>
    obtain ⟨k, vs⟩ := kv
    by_cases hk : k = key
    · simp [Header.Add, Header.values, hk]
    · simp [Header.Add, Header.values, hk, ih]

/-- Adding a value under one name leaves the values under every other name. -/
theorem Header.values_Add_of_ne (h : Header) (key value k : String) (hk : k ≠ key) :
    Header.values (Header.Add h key value) k = Header.values h k := by
  induction h with
  | nil =>
    have hne : ¬ key = k := fun e => hk e.symm
    simp [Header.Add, Header.values, hne]
  | cons kv rest ih =>
    obtain ⟨k1, vs⟩ := kv
    by_cases h1 : k1 = key
    · subst h1
      have hne : ¬ k1 = k := fun e => hk e.symm
      simp [Header.Add, Header.values, hne]
    · by_cases h2 : k1 = k
      · subst h2
        simp [Header.Add, Header.values, h1]
      · simp [Header.Add, Header.values, h1, h2, ih]

theorem Header.Get_Add_of_absent (h : Header) (key value : String)
    (habs : Header.values h key = []) : Header.Get (Header.Add h key value) key = value := by
  simp [Header.Get, Header.values_Add, habs]

theorem Header.Get_Add_of_present (h : Header) (key value : String)
    (hpres : Header.values h key ≠ []) :
    Header.Get (Header.Add h key value) key = Header.Get h key := by
  simp only [Header.Get, Header.values_Add]
  cases hv : Header.values h key with
  | nil => exact absurd hv hpres
  | cons a l => rfl

/-- The hook with a non-empty chain and a request whose `Authorization` reads empty. -/
theorem checkRedirectFunc_empty (req v0 : Request) (rest : List Request)
    (h : req.Header.Get "Authorization" = "") :
    checkRedirectFunc req (v0 :: rest) = .ret
      ({ req with Header := req.Header.Add "Authorization" (v0.Header.Get "Authorization") },
        none) := by
  simp [checkRedirectFunc, h]

/-- The hook with a request whose `Authorization` reads non-empty. -/
theorem checkRedirectFunc_present (req : Request) (via : List Request)
    (h : req.Header.Get "Authorization" ≠ "") : checkRedirectFunc req via = .ret (req, none) := by
  simp [checkRedirectFunc, h]

/-- C8: for every request `req` and every chain `via` with first request
`via[0]`, `checkRedirectFunc` returns nil; if `req` had no `Authorization`
value, it is left with the `Authorization` value of `via[0]`; if its
`Authorization` header was not empty, `req` is left as it was; and a
redirected request, whose header `net/http` has filled from `via[0]`, leaves
the hook with the `Authorization` header of `via[0]`, so the follow-up request
of `GetBooks` and `GetContacts` carries `Bearer <token>` as the original
request does. -/
theorem C8_redirect_keeps_authorization (req v0 : Request) (rest : List Request) :
    ∃ req2, checkRedirectFunc req (v0 :: rest) = .ret (req2, none)
      ∧ (req.Header.values "Authorization" = [] →
          req2.Header.values "Authorization" = [v0.Header.Get "Authorization"]
          ∧ req2.Header.Get "Authorization" = v0.Header.Get "Authorization")
      ∧ (req.Header.Get "Authorization" ≠ "" → req2 = req)
      ∧ (redirectedFrom req v0 = true →
          req2.Header.Get "Authorization" = v0.Header.Get "Authorization"
          ∧ (∀ token, getBooksRequest token = .ret v0 →
              req2.Header.Get "Authorization" = "Bearer " ++ token)
          ∧ (∀ token bookId, getContactsRequest token bookId = .ret v0 →
              req2.Header.Get "Authorization" = "Bearer " ++ token)) := by
  have main : ∃ req2, checkRedirectFunc req (v0 :: rest) = .ret (req2, none)
      ∧ (req.Header.values "Authorization" = [] →
          req2.Header.values "Authorization" = [v0.Header.Get "Authorization"]
          ∧ req2.Header.Get "Authorization" = v0.Header.Get "Authorization")
      ∧ (req.Header.Get "Authorization" ≠ "" → req2 = req)
      ∧ (redirectedFrom req v0 = true →
          req2.Header.Get "Authorization" = v0.Header.Get "Authorization") := by
    by_cases hget : req.Header.Get "Authorization" = ""
    · refine ⟨_, checkRedirectFunc_empty req v0 rest hget, ?_, fun hne => absurd hget hne, ?_⟩
      · intro habs
        refine ⟨?_, Header.Get_Add_of_absent _ _ _ habs⟩
        show Header.values (Header.Add req.Header "Authorization" _) "Authorization" = _
        rw [Header.values_Add, habs]
        rfl
      · intro hreq
        by_cases habs : Header.values req.Header "Authorization" = []
        · exact Header.Get_Add_of_absent _ _ _ habs
        · have hsame : Header.values req.Header "Authorization"
              = Header.values v0.Header "Authorization" := by
            simpa [redirectedFrom, habs] using hreq
          have h0 : v0.Header.Get "Authorization" = req.Header.Get "Authorization" := by
            simp [Header.Get, hsame]
          show Header.Get (Header.Add req.Header "Authorization" _) "Authorization" = _
          rw [Header.Get_Add_of_present _ _ _ habs, h0]
    · have hpres : Header.values req.Header "Authorization" ≠ [] := by
        intro h
        exact hget (by simp [Header.Get, h])
      refine ⟨req, checkRedirectFunc_present req _ hget, fun h => absurd h hpres,
        fun _ => rfl, ?_⟩
      intro hreq
      have hsame : Header.values req.Header "Authorization"
          = Header.values v0.Header "Authorization" := by
        simpa [redirectedFrom, hpres] using hreq
      simp [Header.Get, hsame]
  obtain ⟨req2, hret, habsent, hkeep, hauth⟩ := main
  refine ⟨req2, hret, habsent, hkeep, fun hreq => ⟨hauth hreq, ?_, ?_⟩⟩
  · intro token hv0
    rw [getBooksRequest_eq] at hv0
    cases hv0
    rw [hauth hreq]
    simp [Header.Get, Header.values]
  · intro token bookId hv0
    rw [getContactsRequest_eq] at hv0
    cases hv0
    rw [hauth hreq]
    simp [Header.Get, Header.values]

theorem C8_redirect_keeps_authorization_witness :
    ∃ req2, checkRedirectFunc
        ⟨"GET", "https://api.reckon.com/r1/cashbooks/", "api.reckon.com",
          [("Accept", ["application/json"])], ""⟩
        [⟨"GET", "https://api.reckon.com/r1/cashbooks", "api.reckon.com",
          [("Accept", ["application/json"]), ("Authorization", ["Bearer tok"])], ""⟩]
        = .ret (req2, none)
      ∧ req2.Header.values "Authorization" = ["Bearer tok"]
      ∧ req2.Header.Get "Authorization" = "Bearer " ++ "tok" := by
  obtain ⟨req2, h1, h2, _, h4⟩ := C8_redirect_keeps_authorization
    ⟨"GET", "https://api.reckon.com/r1/cashbooks/", "api.reckon.com",
      [("Accept", ["application/json"])], ""⟩
    ⟨"GET", "https://api.reckon.com/r1/cashbooks", "api.reckon.com",
      [("Accept", ["application/json"]), ("Authorization", ["Bearer tok"])], ""⟩
    []
  exact ⟨req2, h1, (h2 (by decide)).1, (h4 (by decide)).2.1 "tok" (getBooksRequest_eq "tok")⟩

/-- C9, as stated, fails: a redirected request to the host `evil.example`,
from which the client has dropped the `Authorization` header, leaves the hook
with the bearer token of the original request to `api.reckon.com`. -/
theorem C9_token_follows_to_other_host :
    ∃ v0 req2, getBooksRequest "tok" = .ret v0
      ∧ checkRedirectFunc
          ⟨"GET", "https://evil.example/r1/cashbooks", "evil.example",
            [("Accept", ["application/json"])], ""⟩ [v0] = .ret (req2, none)
      ∧ req2.Host = "evil.example" ∧ v0.Host = "api.reckon.com" ∧ req2.Host ≠ v0.Host
      ∧ req2.Header.values "Authorization" = ["Bearer tok"]
      ∧ v0.Header.values "Authorization" = ["Bearer tok"] := by
  refine ⟨_, _, getBooksRequest_eq "tok", checkRedirectFunc_empty _ _ _ (by decide), ?_⟩
  decide

/-- C9, amended: the redirect policy of `GetBooks` and `GetContacts` does not
look at hosts: for every redirected request whose `Authorization` header reads
empty, whatever its target host, also one that differs from the host of the
original request, `checkRedirectFunc` adds the `Authorization` value of the
original request to it and changes nothing else: the values under every other
header name, the host, the URL, the method and the body stay as they were. -/
theorem C9_hook_ignores_host (req v0 : Request) (rest : List Request)
    (hempty : req.Header.Get "Authorization" = "") :
    ∃ req2, checkRedirectFunc req (v0 :: rest) = .ret (req2, none)
      ∧ req2.Header.values "Authorization"
        = req.Header.values "Authorization" ++ [v0.Header.Get "Authorization"]
      ∧ (∀ k, k ≠ "Authorization" → req2.Header.values k = req.Header.values k)
      ∧ req2.Host = req.Host ∧ req2.URL = req.URL ∧ req2.Method = req.Method
      ∧ req2.Body = req.Body := by
  exact ⟨_, checkRedirectFunc_empty req v0 rest hempty, Header.values_Add _ _ _,
    fun k hk => Header.values_Add_of_ne _ _ _ k hk, rfl, rfl, rfl, rfl⟩

theorem C9_hook_ignores_host_witness :
    ∃ req2, checkRedirectFunc
        ⟨"GET", "https://other.example/r1/acct42/contacts", "other.example",
          [("Accept", ["application/json"])], ""⟩
        [⟨"GET", "https://api.reckon.com/r1/acct42/contacts", "api.reckon.com",
          [("Accept", ["application/json"]), ("Authorization", ["Bearer tok"])], ""⟩]
        = .ret (req2, none)
      ∧ req2.Header.values "Authorization" = [] ++ ["Bearer tok"]
      ∧ req2.Header.values "Accept" = ["application/json"]
      ∧ req2.Host = "other.example" := by
  obtain ⟨req2, h1, h2, h3, h4, _⟩ := C9_hook_ignores_host
    ⟨"GET", "https://other.example/r1/acct42/contacts", "other.example",
      [("Accept", ["application/json"])], ""⟩
    ⟨"GET", "https://api.reckon.com/r1/acct42/contacts", "api.reckon.com",
      [("Accept", ["application/json"]), ("Authorization", ["Bearer tok"])], ""⟩
    [] (by decide)
  exact ⟨req2, h1, h2, h3 "Accept" (by decide), h4⟩

/-! ## The resource operations -/

theorem GetBooks_eq {α : Type} (decodeValue : JValue → α × Option GoError)
    (client : Request → DoResult) (v : Reckon) (token : String) :
    ∃ req, getBooksRequest token = .ret req
      ∧ GetBooks decodeValue client v token = recordsReply decodeValue (client req) := by
  refine ⟨_, getBooksRequest_eq token, ?_⟩
  simp [GetBooks, getBooksRequest_eq]

theorem GetContacts_eq {α : Type} (decodeValue : JValue → α × Option GoError)
    (client : Request → DoResult) (v : Reckon) (token bookId : String) :
    ∃ req, getContactsRequest token bookId = .ret req
      ∧ GetContacts decodeValue client v token bookId
        = recordsReply decodeValue (client req) := by
  refine ⟨_, getContactsRequest_eq token bookId, ?_⟩
  simp [GetContacts, getContactsRequest_eq]

/-- An array whose items all decode without error gives no error. -/
theorem filterMap_err_nil {α : Type} (decodeValue : JValue → α × Option GoError)
    (xs : List JValue) (h : ∀ x ∈ xs, (decodeValue x).2 = none) :
    xs.filterMap (fun x => (decodeValue x).2) = [] := by
  induction xs with
  | nil => rfl
  | cons x rest ih =>
    have hx : (decodeValue x).2 = none := h x (List.mem_cons_self _ _)
    have hrest := ih (fun y hy => h y (List.mem_cons_of_mem _ hy))
    simp [List.filterMap_cons, hx, hrest]

/-- The reply never holds records and an error at once. -/
theorem recordsReply_exclusive {α : Type} (decodeValue : JValue → α × Option GoError)
    (d : DoResult) (recs : Option (List α)) (err : Option GoError)
    (h : recordsReply decodeValue d = .ret (recs, err)) : err = none ∨ recs = none := by
  unfold recordsReply at h
  split at h
  · cases h; exact Or.inr rfl
  · split at h
    · cases h
    · split at h
      · cases h; exact Or.inr rfl
      · split at h
        · split at h
          · cases h; exact Or.inr rfl
          · cases h; exact Or.inl rfl
        · cases h; exact Or.inr rfl

/-- The reply to a response whose body was read. -/
theorem recordsReply_response {α : Type} (decodeValue : JValue → α × Option GoError)
    (d : DoResult) (res : Response) (body : Body) (hd : d = ⟨some res, none⟩)
    (hbody : res.Body = .ok body) :
    ∃ recs err, recordsReply decodeValue d = .ret (recs, err)
      ∧ (res.StatusCode = 200 → ∀ xs, body = .json (.arr xs) →
          (∀ x ∈ xs, (decodeValue x).2 = none) →
          recs = some (xs.map (fun x => (decodeValue x).1)) ∧ err = none)
      ∧ (res.StatusCode = 200 → ∀ e, (unmarshalSlice decodeValue body).2 = some e →
          recs = none ∧ err = some e)
      ∧ (res.StatusCode ≠ 200 → recs = none
          ∧ err = some (.errorf ("Failed to get Reckon Contacts " ++ res.Status))) := by
  subst hd
  by_cases hcode : res.StatusCode = 200
  · rcases hu : unmarshalSlice decodeValue body with ⟨resp, _ | e⟩
    · refine ⟨resp, none, by simp [recordsReply, hbody, hcode, hu], ?_, ?_, ?_⟩
      · intro _ xs hxs hall
        subst hxs
        simp only [unmarshalSlice, Prod.mk.injEq] at hu
        exact ⟨hu.1.symm, rfl⟩
      · intro _ e he
        cases he
      · intro hne
        exact absurd hcode hne
    · refine ⟨none, some e, by simp [recordsReply, hbody, hcode, hu], ?_, ?_, ?_⟩
      · intro _ xs hxs hall
        subst hxs
        simp [unmarshalSlice, filterMap_err_nil decodeValue xs hall] at hu
      · intro _ e2 he
        cases he
        exact ⟨rfl, rfl⟩
      · intro hne
        exact absurd hcode hne
  · refine ⟨none, some (.errorf ("Failed to get Reckon Contacts " ++ res.Status)),
      by simp [recordsReply, hbody, hcode], ?_, ?_, ?_⟩
    · intro h
      exact absurd h hcode
    · intro h
      exact absurd h hcode
    · intro _
      exact ⟨rfl, rfl⟩

/-- C10: for every response status and body, `GetBooks` and `GetContacts`
return records with a nil error, or nil with an error, never both records and
an error: on status 200 with a JSON array of `n` items that decode into the
record type, the `n` decoded records and a nil error; on status 200 with a
body that `json.Unmarshal` rejects, nil and that error; on any other status,
whatever the body, nil and an error whose message contains the status. -/
theorem C10_records_or_error {α : Type} (decodeValue : JValue → α × Option GoError)
    (client : Request → DoResult) (v : Reckon) (token bookId : String) (res : Response)
    (body : Body) (hclient : ∀ req, client req = ⟨some res, none⟩)
    (hbody : res.Body = .ok body) :
    ∃ recs err, GetBooks decodeValue client v token = .ret (recs, err)
      ∧ GetContacts decodeValue client v token bookId = .ret (recs, err)
      ∧ (err = none ∨ recs = none)
      ∧ (res.StatusCode = 200 → ∀ xs, body = .json (.arr xs) →
          (∀ x ∈ xs, (decodeValue x).2 = none) →
          err = none ∧ ∃ l, recs = some l ∧ l.length = xs.length
            ∧ l = xs.map (fun x => (decodeValue x).1))
      ∧ (res.StatusCode = 200 → ∀ e, (unmarshalSlice decodeValue body).2 = some e →
          recs = none ∧ err = some e)
      ∧ (res.StatusCode = 200 → ∀ msg, body = .malformed msg →
          recs = none ∧ err = some (.jsonMalformed msg))
      ∧ (res.StatusCode ≠ 200 → recs = none
          ∧ ∃ e, err = some e ∧ Contains e.Error res.Status) := by
  obtain ⟨rb, _, hb⟩ := GetBooks_eq decodeValue client v token
  obtain ⟨rc, _, hc⟩ := GetContacts_eq decodeValue client v token bookId
  obtain ⟨recs, err, hret, harr, hbad, hstatus⟩ :=
    recordsReply_response decodeValue ⟨some res, none⟩ res body rfl hbody
  rw [hclient rb] at hb
  rw [hclient rc] at hc
  refine ⟨recs, err, hb.trans hret, hc.trans hret,
    recordsReply_exclusive decodeValue _ recs err hret, ?_, hbad, ?_, ?_⟩
  · intro h200 xs hxs hall
    obtain ⟨h1, h2⟩ := harr h200 xs hxs hall
    exact ⟨h2, _, h1, by simp, rfl⟩
  · intro h200 msg hmsg
    subst hmsg
    exact hbad h200 _ rfl
  · intro hne
    obtain ⟨h1, h2⟩ := hstatus hne
    exact ⟨h1, _, h2, contains_suffix _ _⟩

theorem C10_records_or_error_witness :
    ∃ recs err,
      GetBooks decodeBook (answer ⟨200, "200 OK", .ok (.json (.arr [.obj [("id", .str "b1")]]))⟩)
        sampleClient "tok" = .ret (recs, err)
      ∧ GetContacts decodeBook
        (answer ⟨200, "200 OK", .ok (.json (.arr [.obj [("id", .str "b1")]]))⟩)
        sampleClient "tok" "acct42" = .ret (recs, err)
      ∧ err = none ∧ recs = some [⟨"b1"⟩] := by
  obtain ⟨recs, err, h1, h2, _, h4, _⟩ := C10_records_or_error decodeBook
    (answer ⟨200, "200 OK", .ok (.json (.arr [.obj [("id", .str "b1")]]))⟩)
    sampleClient "tok" "acct42"
    ⟨200, "200 OK", .ok (.json (.arr [.obj [("id", .str "b1")]]))⟩
    (.json (.arr [.obj [("id", .str "b1")]])) (fun _ => rfl) rfl
  obtain ⟨he, l, hl, _, hmap⟩ := h4 rfl [.obj [("id", .str "b1")]] rfl (by decide)
  refine ⟨recs, err, h1, h2, he, ?_⟩
  rw [hl, hmap]
  decide

end GoReckon
